import Mathlib

/-!
Verification of the command pipeline of `NeopixelCommander.h`
(repository NeopixelWSController).

The file shallowly embeds the parts of the source that the claims are
about: the fixed-capacity ring buffer of commands (`commandQueue`,
`queueStart`, `queueEnd`, `enqueueCommand`), the executor tick (`loop`),
and the WebSocket ingress dispatcher (`_onWsEvent`).  Machine integers
(`uint8_t`, `uint16_t`, `uint32_t`) are modelled as `Nat` with explicit
`% 2^w` at the places where C++ narrowing conversions occur.  Calls into
the external collaborators (the NeoPixel strip and the WebSocket client
registry) are recorded as an ordered event trace in addition to their
effect on the modelled in-memory state.
-/

/-- `#define COMMANDS_PER_LOOP 10` (NeopixelCommander.h line 9). -/
def COMMANDS_PER_LOOP : Nat := 10

/-- `static const uint16_t QUEUE_SIZE = 512` (NeopixelCommander.h line 242). -/
def QUEUE_SIZE : Nat := 512

/-- `enum CommandType` (NeopixelCommander.h lines 12-19). -/
inductive CommandType : Type where
  | SET_PIXEL_COLOR : CommandType
  | SET_COLOR : CommandType
  | CLEAR : CommandType
  | SHOW : CommandType
  | SET_BRIGHTNESS : CommandType
deriving DecidableEq, Repr

/-- `struct Command` (NeopixelCommander.h lines 21-31).  `index` is a
`uint16_t`, `r`, `g`, `b`, `brightness` are `uint8_t`, `clientId` and
`commandId` are `uint32_t`; all are modelled as `Nat` carrying the value
the C++ field holds.  Fields the dispatcher leaves uninitialised for a
given command kind are modelled as 0. -/
structure Command : Type where
  type : CommandType
  index : Nat := 0
  r : Nat := 0
  g : Nat := 0
  b : Nat := 0
  brightness : Nat := 0
  clientId : Nat := 0
  commandId : Nat := 0
deriving DecidableEq, Repr

/-- The ring-buffer part of the `NeopixelCommander` object state:
`Command commandQueue[QUEUE_SIZE]`, `uint16_t queueStart`,
`uint16_t queueEnd` (NeopixelCommander.h lines 255-257).  The array is
modelled as a total function from slot number to `Command`; only slots
below `QUEUE_SIZE` are ever read or written. -/
structure QueueState : Type where
  commandQueue : Nat → Command
  queueStart : Nat
  queueEnd : Nat

/-- The member initialisers `queueStart = 0`, `queueEnd = 0`; the array
contents are indeterminate at start, modelled by a fixed default. -/
def initQueue : QueueState :=
  { commandQueue := fun _ => { type := CommandType.CLEAR }
    queueStart := 0
    queueEnd := 0 }

/-- `bool enqueueCommand(const Command &cmd)` (NeopixelCommander.h lines
259-270), returning the C++ return value paired with the state after the
call.  `(queueEnd + 1) % QUEUE_SIZE` is computed in `int` after integer
promotion and stored back into `uint16_t`; for `queueEnd < 65536` the
value agrees with the `Nat` computation. -/
def enqueueCommand (s : QueueState) (cmd : Command) : Bool × QueueState :=
  let nextEnd := (s.queueEnd + 1) % QUEUE_SIZE
  if nextEnd = s.queueStart then
    (false, s)
  else
    (true,
      { commandQueue := fun i => if i = s.queueEnd then cmd else s.commandQueue i
        queueStart := s.queueStart
        queueEnd := nextEnd })

/-- The dequeue step performed at the top of each executor iteration:
`queueStart = (queueStart + 1) % QUEUE_SIZE` (NeopixelCommander.h line
176).  The command read just before is `s.commandQueue s.queueStart`. -/
def dequeueStep (s : QueueState) : QueueState :=
  { s with queueStart := (s.queueStart + 1) % QUEUE_SIZE }

/-- Number of occupied slots, `(writeIndex - readIndex) mod C` computed
without `Nat` underflow; for indices below `QUEUE_SIZE` this is the
uint16 expression `(queueEnd - queueStart) % QUEUE_SIZE`. -/
def occupancy (s : QueueState) : Nat :=
  (s.queueEnd + QUEUE_SIZE - s.queueStart) % QUEUE_SIZE

/-- Both cursor fields stay below `QUEUE_SIZE`; this holds initially and
is preserved by every operation (claim C9). -/
def queueBounds (s : QueueState) : Prop :=
  s.queueStart < QUEUE_SIZE ∧ s.queueEnd < QUEUE_SIZE

instance (s : QueueState) : Decidable (queueBounds s) := by
  unfold queueBounds; infer_instance

/-- Abstraction function: the buffered commands in FIFO order, oldest
first, read from the ring starting at `queueStart`. -/
def queueList (s : QueueState) : List Command :=
  (List.range (occupancy s)).map
    (fun i => s.commandQueue ((s.queueStart + i) % QUEUE_SIZE))

/-- States of the ring buffer reachable from the initial state by the two
operations the source ever performs on it: an `enqueueCommand` call (from
the dispatcher) and a dequeue step (from `loop`, guarded by
`queueStart != queueEnd`). -/
inductive QueueReach : QueueState → Prop where
  | init : QueueReach initQueue
  | enq (s : QueueState) (c : Command) (h : QueueReach s) :
      QueueReach (enqueueCommand s c).2
  | deq (s : QueueState) (h : QueueReach s)
      (hne : s.queueStart ≠ s.queueEnd) : QueueReach (dequeueStep s)

/-- The in-memory state of the external `Adafruit_NeoPixel` collaborator:
a packed 32-bit color per pixel (as produced by `Color(r,g,b)`), plus the
brightness byte.  Pushing to the physical strip (`show()`) does not
change this state; it is recorded in the event trace instead. -/
structure Strip : Type where
  numPixels : Nat
  pixels : Nat → Nat
  brightness : Nat

/-- `Adafruit_NeoPixel::Color(r,g,b) = (r << 16) | (g << 8) | b` for
byte-sized channels. -/
def stripColor (r g b : Nat) : Nat :=
  r * 65536 + g * 256 + b

/-- `Adafruit_NeoPixel::setPixelColor(n, c)`: writes pixel `n` when
`n < numLEDs`, otherwise does nothing (the library's own bounds guard). -/
def stripSetPixel (st : Strip) (n c : Nat) : Strip :=
  if n < st.numPixels then
    { st with pixels := fun i => if i = n then c else st.pixels i }
  else
    st

/-- `Adafruit_NeoPixel::clear()`: zeroes the whole pixel buffer. -/
def stripClear (st : Strip) : Strip :=
  { st with pixels := fun _ => 0 }

/-- Observable calls made by the executor and the dispatcher: calls into
the strip library and `client->text(...)` replies. -/
inductive Event : Type where
  | setPixel (n : Nat) (c : Nat) : Event
  | clear : Event
  | showStrip : Event
  | setBrightness (b : Nat) : Event
  | text (clientId : Nat) (msg : String) : Event
deriving DecidableEq, Repr

/-- Whether an event is a `client->text(...)` reply. -/
def Event.isText : Event → Bool
  | Event.text _ _ => true
  | _ => false

/-- The `SET_COLOR` case of the executor switch (NeopixelCommander.h
lines 184-187): `for (uint16_t i = 0; i < _numPixels; ++i)
_strip.setPixelColor(i, _strip.Color(r,g,b))`. -/
def forSetColor (st : Strip) (c : Nat) : Strip :=
  (List.range st.numPixels).foldl (fun acc i => stripSetPixel acc i c) st

/-- The `switch (cmd.type)` of `loop` (NeopixelCommander.h lines
179-197): the strip state after executing one command, together with the
trace of strip-library calls made. -/
def executeCommand (st : Strip) (cmd : Command) : Strip × List Event :=
  match cmd.type with
  | CommandType.SET_PIXEL_COLOR =>
      (stripSetPixel st cmd.index (stripColor cmd.r cmd.g cmd.b),
       [Event.setPixel cmd.index (stripColor cmd.r cmd.g cmd.b)])
  | CommandType.SET_COLOR =>
      (forSetColor st (stripColor cmd.r cmd.g cmd.b),
       (List.range st.numPixels).map
         (fun i => Event.setPixel i (stripColor cmd.r cmd.g cmd.b)))
  | CommandType.CLEAR =>
      (stripClear st, [Event.clear])
  | CommandType.SHOW =>
      (st, [Event.showStrip])
  | CommandType.SET_BRIGHTNESS =>
      ({ st with brightness := cmd.brightness }, [Event.setBrightness cmd.brightness])

/-- `{"status":"ok","ack":%u}` formatted at NeopixelCommander.h line 204. -/
def ackMsg (id : Nat) : String :=
  "\x7b\"status\":\"ok\",\"ack\":" ++ toString id ++ "\x7d"

/-- `{"status":"ok","message":"pong"}` (lines 294 and 307). -/
def pongMsg : String :=
  "\x7b\"status\":\"ok\",\"message\":\"pong\"\x7d"

/-- `{"status":"ok","pixelCount":%u}` (line 316). -/
def pixelCountMsg (n : Nat) : String :=
  "\x7b\"status\":\"ok\",\"pixelCount\":" ++ toString n ++ "\x7d"

/-- `{"status":"error","error":"missing_id"}` (line 326). -/
def missingIdMsg : String :=
  "\x7b\"status\":\"error\",\"error\":\"missing_id\"\x7d"

/-- `{"status":"error","error":"unknown_cmd","id":%u}` (line 376). -/
def unknownCmdMsg (id : Nat) : String :=
  "\x7b\"status\":\"error\",\"error\":\"unknown_cmd\",\"id\":" ++ toString id ++ "\x7d"

/-- `{"status":"error","error":"index_out_of_bounds","id":%u,"max":%u}`
(line 358). -/
def oobMsg (id mx : Nat) : String :=
  "\x7b\"status\":\"error\",\"error\":\"index_out_of_bounds\",\"id\":" ++
    toString id ++ ",\"max\":" ++ toString mx ++ "\x7d"

/-- `{"status":"error","error":"queue_full","id":%u}` (line 385). -/
def queueFullMsg (id : Nat) : String :=
  "\x7b\"status\":\"error\",\"error\":\"queue_full\",\"id\":" ++ toString id ++ "\x7d"

/-- `{"status":"error","error":"bad_json"}` (line 393). -/
def badJsonMsg : String :=
  "\x7b\"status\":\"error\",\"error\":\"bad_json\"\x7d"

/-- The value printed for `max` by `%u` applied to `_numPixels - 1`:
`_numPixels` is a `uint16_t`, so the subtraction happens in `int` and is
read back as `unsigned int`; for `numPixels >= 1` this is just
`numPixels - 1`, for `numPixels = 0` it is `2^32 - 1`. -/
def maxIndexPrinted (numPixels : Nat) : Nat :=
  (numPixels + 4294967295) % 4294967296

/-- The state of the `NeopixelCommander` object relevant to the claims:
the ring buffer, the strip collaborator, and the connection registry
(`_ws.client(id)` exists and `status() == WS_CONNECTED`), modelled as a
liveness predicate on client ids. -/
structure SysState : Type where
  queue : QueueState
  strip : Strip
  connected : Nat → Bool

/-- One iteration body of the executor drain after the dequeue
(NeopixelCommander.h lines 178-206): execute the command on the strip,
then look up the originating connection and send the acknowledgment only
when it is still connected. -/
def execAndAck (sys : SysState) (cmd : Command) : SysState × List Event :=
  let r := executeCommand sys.strip cmd
  let ackEvs :=
    if sys.connected cmd.clientId then
      [Event.text cmd.clientId (ackMsg cmd.commandId)]
    else
      []
  ({ sys with strip := r.1 }, r.2 ++ ackEvs)

/-- The drain loop of `loop` (NeopixelCommander.h lines 172-209):
`while (queueStart != queueEnd && processed < COMMANDS_PER_LOOP)`.
The counter `processed` counts up from 0 in the source; here `fuel`
counts the remaining iterations `COMMANDS_PER_LOOP - processed` down to
0.  Returns the final state, the commands executed in order, and the
event trace. -/
def loopAux : SysState → Nat → SysState × List Command × List Event
  | sys, 0 => (sys, [], [])
  | sys, fuel + 1 =>
    if sys.queue.queueStart = sys.queue.queueEnd then
      (sys, [], [])
    else
      let cmd := sys.queue.commandQueue sys.queue.queueStart
      let sys1 : SysState := { sys with queue := dequeueStep sys.queue }
      let r := execAndAck sys1 cmd
      let rest := loopAux r.1 fuel
      (rest.1, cmd :: rest.2.1, r.2 ++ rest.2.2)

/-- `void loop()` (NeopixelCommander.h lines 167-210), command-draining
part (`_ws.cleanupClients()` touches only the external registry). -/
def loop (sys : SysState) : SysState × List Command × List Event :=
  loopAux sys COMMANDS_PER_LOOP

/-- The decoded JSON document as the dispatcher reads it.  `cmd` holds
`doc["cmd"] | ""` (so an absent or non-string `cmd` is the empty
string); the numeric fields are `none` when absent and otherwise hold
the decoded non-negative value, assumed representable in the C `int`
through which `doc[k] | d` extracts it. -/
structure JsonMsg : Type where
  cmd : String := ""
  id : Option Nat := none
  r : Option Nat := none
  g : Option Nat := none
  b : Option Nat := none
  index : Option Nat := none
  brightness : Option Nat := none

/-- An inbound final text frame, as classified by the dispatcher: the
bare literal `ping` payload, a payload `deserializeJson` rejects, or a
decoded JSON document. -/
inductive InMsg : Type where
  | rawPing : InMsg
  | badJson : InMsg
  | json (m : JsonMsg) : InMsg

/-- The tail of the dispatcher for a validated command
(NeopixelCommander.h lines 380-389): attempt to enqueue, reply
`queue_full` on failure, no reply on success. -/
def enqueueOrReject (sys : SysState) (clientId id : Nat) (command : Command) :
    SysState × List Event :=
  let r := enqueueCommand sys.queue command
  ({ sys with queue := r.2 },
   if r.1 then [] else [Event.text clientId (queueFullMsg id)])

/-- `_onWsEvent` (NeopixelCommander.h lines 272-397) on a final text
data frame.  `clientId` is `client->id()`; replies `client->text(...)`
are returned as events.  The C++ narrowing conversions into the
`Command` fields appear as the explicit `% 256`, `% 65536`,
`% 4294967296`. -/
def onWsEvent : SysState → Nat → InMsg → SysState × List Event
  | sys, clientId, InMsg.rawPing => (sys, [Event.text clientId pongMsg])
  | sys, clientId, InMsg.badJson => (sys, [Event.text clientId badJsonMsg])
  | sys, clientId, InMsg.json m =>
    if m.cmd = "ping" then
      (sys, [Event.text clientId pongMsg])
    else if m.cmd = "getPixelCount" then
      (sys, [Event.text clientId (pixelCountMsg sys.strip.numPixels)])
    else
      if (m.id.getD 0) % 4294967296 = 0 then
        (sys, [Event.text clientId missingIdMsg])
      else if m.cmd = "setColor" then
        enqueueOrReject sys clientId ((m.id.getD 0) % 4294967296)
          { type := CommandType.SET_COLOR
            r := (m.r.getD 0) % 256
            g := (m.g.getD 0) % 256
            b := (m.b.getD 0) % 256
            clientId := clientId
            commandId := (m.id.getD 0) % 4294967296 }
      else if m.cmd = "clear" then
        enqueueOrReject sys clientId ((m.id.getD 0) % 4294967296)
          { type := CommandType.CLEAR
            clientId := clientId
            commandId := (m.id.getD 0) % 4294967296 }
      else if m.cmd = "setPixelColor" then
        if sys.strip.numPixels ≤ (m.index.getD 0) % 65536 then
          (sys, [Event.text clientId (oobMsg ((m.id.getD 0) % 4294967296)
            (maxIndexPrinted sys.strip.numPixels))])
        else
          enqueueOrReject sys clientId ((m.id.getD 0) % 4294967296)
            { type := CommandType.SET_PIXEL_COLOR
              index := (m.index.getD 0) % 65536
              r := (m.r.getD 0) % 256
              g := (m.g.getD 0) % 256
              b := (m.b.getD 0) % 256
              clientId := clientId
              commandId := (m.id.getD 0) % 4294967296 }
      else if m.cmd = "show" then
        enqueueOrReject sys clientId ((m.id.getD 0) % 4294967296)
          { type := CommandType.SHOW
            clientId := clientId
            commandId := (m.id.getD 0) % 4294967296 }
      else if m.cmd = "setBrightness" then
        enqueueOrReject sys clientId ((m.id.getD 0) % 4294967296)
          { type := CommandType.SET_BRIGHTNESS
            brightness := (m.brightness.getD 255) % 256
            clientId := clientId
            commandId := (m.id.getD 0) % 4294967296 }
      else
        (sys, [Event.text clientId (unknownCmdMsg ((m.id.getD 0) % 4294967296))])

/-! ## Queue lemmas -/

theorem occupancy_lt (s : QueueState) : occupancy s < QUEUE_SIZE := by
  unfold occupancy QUEUE_SIZE
  omega

theorem occupancy_init : occupancy initQueue = 0 := by
  unfold occupancy initQueue QUEUE_SIZE
  simp

theorem occupancy_eq_zero_iff (s : QueueState) (hs : s.queueStart < QUEUE_SIZE)
    (he : s.queueEnd < QUEUE_SIZE) :
    occupancy s = 0 ↔ s.queueStart = s.queueEnd := by
  unfold occupancy QUEUE_SIZE at *
  omega

/-- The enqueue test `(queueEnd + 1) % QUEUE_SIZE == queueStart` holds
exactly when `QUEUE_SIZE - 1` slots are occupied. -/
theorem full_test_iff (s : QueueState) (hs : s.queueStart < QUEUE_SIZE)
    (he : s.queueEnd < QUEUE_SIZE) :
    (s.queueEnd + 1) % QUEUE_SIZE = s.queueStart ↔ occupancy s = QUEUE_SIZE - 1 := by
  unfold occupancy QUEUE_SIZE at *
  omega

theorem start_add_occupancy (s : QueueState) (hs : s.queueStart < QUEUE_SIZE)
    (he : s.queueEnd < QUEUE_SIZE) :
    (s.queueStart + occupancy s) % QUEUE_SIZE = s.queueEnd := by
  unfold occupancy QUEUE_SIZE at *
  omega

/-- `enqueueCommand` returns `true` exactly when at most
`QUEUE_SIZE - 2` slots are occupied. -/
theorem enqueue_true_iff (s : QueueState) (c : Command)
    (hs : s.queueStart < QUEUE_SIZE) (he : s.queueEnd < QUEUE_SIZE) :
    (enqueueCommand s c).1 = true ↔ occupancy s < QUEUE_SIZE - 1 := by
  unfold enqueueCommand occupancy QUEUE_SIZE at *
  simp only []
  split
  · simp only [Bool.false_eq_true, false_iff]
    omega
  · simp only [true_iff]
    omega

/-- A failed enqueue leaves the state (buffer, both cursors) untouched. -/
theorem enqueue_false_frame (s : QueueState) (c : Command)
    (h : (enqueueCommand s c).1 = false) : (enqueueCommand s c).2 = s := by
  unfold enqueueCommand at *
  simp only [] at h ⊢
  split at h
  · split
    · rfl
    · simp_all
  · simp at h

/-- A successful enqueue preserves the cursor bounds, grows the occupancy
by one, and appends the command at the tail of the abstract FIFO list. -/
theorem enqueue_true_state (s : QueueState) (c : Command)
    (hs : s.queueStart < QUEUE_SIZE) (he : s.queueEnd < QUEUE_SIZE)
    (hocc : occupancy s < QUEUE_SIZE - 1) :
    (enqueueCommand s c).1 = true ∧
    queueBounds (enqueueCommand s c).2 ∧
    occupancy (enqueueCommand s c).2 = occupancy s + 1 ∧
    queueList (enqueueCommand s c).2 = queueList s ++ [c] := by
  have htrue : (enqueueCommand s c).1 = true :=
    (enqueue_true_iff s c hs he).mpr hocc
  have hne : (s.queueEnd + 1) % QUEUE_SIZE ≠ s.queueStart := by
    intro hcontra
    have := (full_test_iff s hs he).mp hcontra
    omega
  have hstate : (enqueueCommand s c).2 =
      { commandQueue := fun i => if i = s.queueEnd then c else s.commandQueue i
        queueStart := s.queueStart
        queueEnd := (s.queueEnd + 1) % QUEUE_SIZE } := by
    unfold enqueueCommand
    simp only [if_neg hne]
  refine ⟨htrue, ?_, ?_, ?_⟩
  · rw [hstate]
    constructor
    · exact hs
    · show (s.queueEnd + 1) % QUEUE_SIZE < QUEUE_SIZE
      unfold QUEUE_SIZE
      omega
  · rw [hstate]
    unfold occupancy QUEUE_SIZE at *
    simp only []
    omega
  · rw [hstate]
    have hocc1 : occupancy
        { commandQueue := fun i => if i = s.queueEnd then c else s.commandQueue i
          queueStart := s.queueStart
          queueEnd := (s.queueEnd + 1) % QUEUE_SIZE } = occupancy s + 1 := by
      unfold occupancy QUEUE_SIZE at *
      simp only []
      omega
    unfold queueList
    rw [hocc1]
    simp only [List.range_succ, List.map_append, List.map_cons, List.map_nil]
    congr 1
    · apply List.map_congr_left
      intro i hi
      rw [List.mem_range] at hi
      have hine : (s.queueStart + i) % QUEUE_SIZE ≠ s.queueEnd := by
        have hoccdef := start_add_occupancy s hs he
        unfold occupancy QUEUE_SIZE at *
        omega
      simp [hine]
    · have hend := start_add_occupancy s hs he
      simp only [hend, if_pos]

/-- The dequeue step preserves the cursor bounds, shrinks the occupancy
by one, and peels the head off the abstract FIFO list. -/
theorem dequeue_state (s : QueueState)
    (hs : s.queueStart < QUEUE_SIZE) (he : s.queueEnd < QUEUE_SIZE)
    (hne : s.queueStart ≠ s.queueEnd) :
    queueBounds (dequeueStep s) ∧
    occupancy (dequeueStep s) = occupancy s - 1 ∧
    queueList s = s.commandQueue s.queueStart :: queueList (dequeueStep s) := by
  have hocc0 : occupancy s ≠ 0 := by
    intro hc
    exact hne ((occupancy_eq_zero_iff s hs he).mp hc)
  have hlt := occupancy_lt s
  refine ⟨⟨by unfold dequeueStep QUEUE_SIZE at *; simp only []; omega, he⟩, ?_, ?_⟩
  · unfold dequeueStep occupancy QUEUE_SIZE at *
    simp only []
    omega
  · have hocc' : occupancy (dequeueStep s) = occupancy s - 1 := by
      unfold dequeueStep occupancy QUEUE_SIZE at *
      simp only []
      omega
    unfold queueList
    rw [hocc']
    have hsucc : occupancy s = (occupancy s - 1) + 1 := by omega
    rw [hsucc, List.range_succ_eq_map]
    simp only [List.map_cons, List.map_map]
    congr 1
    · rw [Nat.add_zero, Nat.mod_eq_of_lt hs]
    · apply List.map_congr_left
      intro i hi
      show s.commandQueue ((s.queueStart + (i + 1)) % QUEUE_SIZE) =
        (dequeueStep s).commandQueue (((dequeueStep s).queueStart + i) % QUEUE_SIZE)
      unfold dequeueStep
      simp only []
      rw [Nat.mod_add_mod]
      congr 2
      omega

/-- Characterisation of the executor drain: with `fuel` remaining
iterations it executes exactly the first `min fuel |queue|` buffered
commands in FIFO order, leaves the rest buffered, folds their executions
over the strip in that order, and changes neither the connection
registry nor the buffered commands' relative order. -/
theorem loopAux_spec (fuel : Nat) (sys : SysState) (hb : queueBounds sys.queue) :
    (loopAux sys fuel).2.1 = (queueList sys.queue).take fuel ∧
    queueBounds (loopAux sys fuel).1.queue ∧
    queueList (loopAux sys fuel).1.queue = (queueList sys.queue).drop fuel ∧
    (loopAux sys fuel).1.strip =
      ((queueList sys.queue).take fuel).foldl
        (fun st c => (executeCommand st c).1) sys.strip ∧
    (loopAux sys fuel).1.connected = sys.connected := by
  induction fuel generalizing sys with
  | zero =>
    exact ⟨rfl, hb, rfl, rfl, rfl⟩
  | succ fuel ih =>
    by_cases hempty : sys.queue.queueStart = sys.queue.queueEnd
    · have hq : queueList sys.queue = [] := by
        unfold queueList
        rw [(occupancy_eq_zero_iff _ hb.1 hb.2).mpr hempty]
        simp
      have hstep : loopAux sys (fuel + 1) = (sys, [], []) := by
        simp [loopAux, hempty]
      rw [hstep, hq]
      exact ⟨rfl, hb, List.drop_nil.symm, rfl, rfl⟩
    · obtain ⟨hb', hocc', hlist⟩ := dequeue_state sys.queue hb.1 hb.2 hempty
      have hihyp := ih
        { queue := dequeueStep sys.queue
          strip := (executeCommand sys.strip
            (sys.queue.commandQueue sys.queue.queueStart)).1
          connected := sys.connected } hb'
      have hstep : loopAux sys (fuel + 1) =
          ((loopAux
              { queue := dequeueStep sys.queue
                strip := (executeCommand sys.strip
                  (sys.queue.commandQueue sys.queue.queueStart)).1
                connected := sys.connected } fuel).1,
           sys.queue.commandQueue sys.queue.queueStart ::
             (loopAux
               { queue := dequeueStep sys.queue
                 strip := (executeCommand sys.strip
                   (sys.queue.commandQueue sys.queue.queueStart)).1
                 connected := sys.connected } fuel).2.1,
           (execAndAck { sys with queue := dequeueStep sys.queue }
               (sys.queue.commandQueue sys.queue.queueStart)).2 ++
             (loopAux
               { queue := dequeueStep sys.queue
                 strip := (executeCommand sys.strip
                   (sys.queue.commandQueue sys.queue.queueStart)).1
                 connected := sys.connected } fuel).2.2) := by
        conv_lhs => rw [loopAux]
        rw [if_neg hempty]
        rfl
      rw [hstep, hlist]
      simp only [List.take_succ_cons, List.drop_succ_cons, List.foldl_cons]
      refine ⟨?_, hihyp.2.1, ?_, ?_, ?_⟩
      · rw [hihyp.1]
      · rw [hihyp.2.2.1]
      · rw [hihyp.2.2.2.1]
      · rw [hihyp.2.2.2.2]

/-! ## Strip and executor lemmas -/

theorem stripSetPixel_numPixels (st : Strip) (n c : Nat) :
    (stripSetPixel st n c).numPixels = st.numPixels := by
  unfold stripSetPixel
  split <;> rfl

theorem stripSetPixel_brightness (st : Strip) (n c : Nat) :
    (stripSetPixel st n c).brightness = st.brightness := by
  unfold stripSetPixel
  split <;> rfl

theorem stripSetPixel_pixels (st : Strip) (n c j : Nat) :
    (stripSetPixel st n c).pixels j =
      if j = n ∧ n < st.numPixels then c else st.pixels j := by
  unfold stripSetPixel
  by_cases hn : n < st.numPixels
  · rw [if_pos hn]
    by_cases hj : j = n
    · simp [hj, hn]
    · simp [hj]
  · rw [if_neg hn]
    have hc : ¬(j = n ∧ n < st.numPixels) := fun h => hn h.2
    rw [if_neg hc]

theorem foldl_setPixel_pixels (l : List Nat) (st : Strip) (c j : Nat) :
    (l.foldl (fun acc i => stripSetPixel acc i c) st).pixels j =
      if j ∈ l ∧ j < st.numPixels then c else st.pixels j := by
  induction l generalizing st with
  | nil => simp
  | cons i l ih =>
    simp only [List.foldl_cons]
    rw [ih, stripSetPixel_numPixels, stripSetPixel_pixels]
    by_cases hjl : j ∈ l
    · by_cases hjN : j < st.numPixels
      · rw [if_pos ⟨hjl, hjN⟩, if_pos ⟨List.mem_cons_of_mem i hjl, hjN⟩]
      · have h1 : ¬(j ∈ l ∧ j < st.numPixels) := fun h => hjN h.2
        have h2 : ¬(j = i ∧ i < st.numPixels) :=
          fun h => hjN (by rw [h.1]; exact h.2)
        have h3 : ¬(j ∈ i :: l ∧ j < st.numPixels) := fun h => hjN h.2
        rw [if_neg h1, if_neg h2, if_neg h3]
    · by_cases hji : j = i
      · subst hji
        by_cases hjN : j < st.numPixels
        · rw [if_neg (fun h => hjl h.1), if_pos ⟨rfl, hjN⟩,
            if_pos ⟨List.mem_cons_self j l, hjN⟩]
        · have h1 : ¬(j ∈ l ∧ j < st.numPixels) := fun h => hjl h.1
          have h2 : ¬(j = j ∧ j < st.numPixels) := fun h => hjN h.2
          have h3 : ¬(j ∈ j :: l ∧ j < st.numPixels) := fun h => hjN h.2
          rw [if_neg h1, if_neg h2, if_neg h3]
      · have h1 : ¬(j ∈ l ∧ j < st.numPixels) := fun h => hjl h.1
        have h2 : ¬(j = i ∧ i < st.numPixels) := fun h => hji h.1
        have h3 : ¬(j ∈ i :: l ∧ j < st.numPixels) := by
          intro h
          rcases List.mem_cons.mp h.1 with h4 | h4
          · exact hji h4
          · exact hjl h4
        rw [if_neg h1, if_neg h2, if_neg h3]

theorem forSetColor_pixels (st : Strip) (c j : Nat) :
    (forSetColor st c).pixels j =
      if j < st.numPixels then c else st.pixels j := by
  unfold forSetColor
  rw [foldl_setPixel_pixels]
  by_cases hj : j < st.numPixels
  · rw [if_pos ⟨List.mem_range.mpr hj, hj⟩, if_pos hj]
  · rw [if_neg (fun h => hj h.2), if_neg hj]

/-- The strip calls made while executing one command never include a
`client->text` reply: the acknowledgment can only be emitted by the code
that runs after the `switch`. -/
theorem executeCommand_no_text (st : Strip) (cmd : Command) :
    ∀ e ∈ (executeCommand st cmd).2, e.isText = false := by
  intro e he
  rcases cmd with ⟨ty, ix, r, g, b, br, ci, co⟩
  cases ty
  all_goals simp only [executeCommand, List.mem_singleton, List.mem_map,
    List.mem_range] at he
  · rw [he]; rfl
  · obtain ⟨i, _, hi⟩ := he
    rw [← hi]; rfl
  · rw [he]; rfl
  · rw [he]; rfl
  · rw [he]; rfl

/-- `strip.show()` is called during the execution of a command exactly
when that command is a `SHOW`. -/
theorem executeCommand_show_mem (st : Strip) (cmd : Command) :
    Event.showStrip ∈ (executeCommand st cmd).2 ↔ cmd.type = CommandType.SHOW := by
  rcases cmd with ⟨ty, ix, r, g, b, br, ci, co⟩
  cases ty <;> simp [executeCommand]

/-- Unfolding of the per-command executor body: the strip is updated by
the `switch`, the queue is untouched, and the event trace is the strip
calls followed by the conditional acknowledgment. -/
theorem execAndAck_spec (sys : SysState) (cmd : Command) :
    (execAndAck sys cmd).1.strip = (executeCommand sys.strip cmd).1 ∧
    (execAndAck sys cmd).1.queue = sys.queue ∧
    (execAndAck sys cmd).2 =
      (executeCommand sys.strip cmd).2 ++
        (if sys.connected cmd.clientId then
          [Event.text cmd.clientId (ackMsg cmd.commandId)]
         else []) := by
  unfold execAndAck
  exact ⟨rfl, rfl, rfl⟩

theorem queueBounds_init : queueBounds initQueue := by
  decide

theorem queueBounds_enqueue (s : QueueState) (c : Command) (hb : queueBounds s) :
    queueBounds (enqueueCommand s c).2 := by
  unfold enqueueCommand
  simp only []
  split
  · exact hb
  · refine ⟨hb.1, ?_⟩
    show (s.queueEnd + 1) % QUEUE_SIZE < QUEUE_SIZE
    unfold QUEUE_SIZE
    omega

theorem queueBounds_dequeue (s : QueueState) (hb : queueBounds s) :
    queueBounds (dequeueStep s) := by
  refine ⟨?_, hb.2⟩
  show (s.queueStart + 1) % QUEUE_SIZE < QUEUE_SIZE
  unfold QUEUE_SIZE
  omega

theorem queueReach_bounds (s : QueueState) (h : QueueReach s) : queueBounds s := by
  induction h with
  | init => exact queueBounds_init
  | enq s c _ ih => exact queueBounds_enqueue s c ih
  | deq s _ hne ih => exact queueBounds_dequeue s ih

/-- When the queue has room, `enqueueOrReject` enqueues silently and the
FIFO list grows by exactly the given command. -/
theorem enqueueOrReject_success (sys : SysState) (clientId id : Nat) (c : Command)
    (hb : queueBounds sys.queue) (hocc : occupancy sys.queue < QUEUE_SIZE - 1) :
    enqueueOrReject sys clientId id c =
      ({ sys with queue := (enqueueCommand sys.queue c).2 }, []) ∧
    queueList (enqueueCommand sys.queue c).2 = queueList sys.queue ++ [c] ∧
    queueBounds (enqueueCommand sys.queue c).2 := by
  obtain ⟨ht, hbb, _, happ⟩ := enqueue_true_state sys.queue c hb.1 hb.2 hocc
  refine ⟨?_, happ, hbb⟩
  unfold enqueueOrReject
  simp [ht]

/-! ## Dispatcher branch lemmas -/

theorem onWsEvent_rawPing (sys : SysState) (clientId : Nat) :
    onWsEvent sys clientId InMsg.rawPing = (sys, [Event.text clientId pongMsg]) := rfl

theorem onWsEvent_badJson (sys : SysState) (clientId : Nat) :
    onWsEvent sys clientId InMsg.badJson = (sys, [Event.text clientId badJsonMsg]) := rfl

theorem onWsEvent_jsonPing (sys : SysState) (clientId : Nat) (m : JsonMsg)
    (hcmd : m.cmd = "ping") :
    onWsEvent sys clientId (InMsg.json m) = (sys, [Event.text clientId pongMsg]) := by
  simp only [onWsEvent]
  rw [if_pos hcmd]

theorem onWsEvent_getPixelCount (sys : SysState) (clientId : Nat) (m : JsonMsg)
    (hcmd : m.cmd = "getPixelCount") :
    onWsEvent sys clientId (InMsg.json m) =
      (sys, [Event.text clientId (pixelCountMsg sys.strip.numPixels)]) := by
  simp only [onWsEvent]
  rw [hcmd]
  rw [if_neg (by decide), if_pos rfl]

theorem onWsEvent_missing_id (sys : SysState) (clientId : Nat) (m : JsonMsg)
    (h1 : m.cmd ≠ "ping") (h2 : m.cmd ≠ "getPixelCount")
    (h0 : (m.id.getD 0) % 4294967296 = 0) :
    onWsEvent sys clientId (InMsg.json m) =
      (sys, [Event.text clientId missingIdMsg]) := by
  simp only [onWsEvent]
  rw [if_neg h1, if_neg h2, if_pos h0]

theorem onWsEvent_setColor (sys : SysState) (clientId : Nat) (m : JsonMsg)
    (hcmd : m.cmd = "setColor") (h0 : (m.id.getD 0) % 4294967296 ≠ 0) :
    onWsEvent sys clientId (InMsg.json m) =
      enqueueOrReject sys clientId ((m.id.getD 0) % 4294967296)
        { type := CommandType.SET_COLOR
          r := (m.r.getD 0) % 256
          g := (m.g.getD 0) % 256
          b := (m.b.getD 0) % 256
          clientId := clientId
          commandId := (m.id.getD 0) % 4294967296 } := by
  simp only [onWsEvent]
  rw [hcmd]
  rw [if_neg (by decide), if_neg (by decide), if_neg h0, if_pos rfl]

theorem onWsEvent_clear (sys : SysState) (clientId : Nat) (m : JsonMsg)
    (hcmd : m.cmd = "clear") (h0 : (m.id.getD 0) % 4294967296 ≠ 0) :
    onWsEvent sys clientId (InMsg.json m) =
      enqueueOrReject sys clientId ((m.id.getD 0) % 4294967296)
        { type := CommandType.CLEAR
          clientId := clientId
          commandId := (m.id.getD 0) % 4294967296 } := by
  simp only [onWsEvent]
  rw [hcmd]
  rw [if_neg (by decide), if_neg (by decide), if_neg h0, if_neg (by decide),
    if_pos rfl]

theorem onWsEvent_setPixelColor_oob (sys : SysState) (clientId : Nat) (m : JsonMsg)
    (hcmd : m.cmd = "setPixelColor") (h0 : (m.id.getD 0) % 4294967296 ≠ 0)
    (hge : sys.strip.numPixels ≤ (m.index.getD 0) % 65536) :
    onWsEvent sys clientId (InMsg.json m) =
      (sys, [Event.text clientId (oobMsg ((m.id.getD 0) % 4294967296)
        (maxIndexPrinted sys.strip.numPixels))]) := by
  simp only [onWsEvent]
  rw [hcmd]
  rw [if_neg (by decide), if_neg (by decide), if_neg h0, if_neg (by decide),
    if_neg (by decide), if_pos rfl, if_pos hge]

theorem onWsEvent_setPixelColor_ok (sys : SysState) (clientId : Nat) (m : JsonMsg)
    (hcmd : m.cmd = "setPixelColor") (h0 : (m.id.getD 0) % 4294967296 ≠ 0)
    (hlt : (m.index.getD 0) % 65536 < sys.strip.numPixels) :
    onWsEvent sys clientId (InMsg.json m) =
      enqueueOrReject sys clientId ((m.id.getD 0) % 4294967296)
        { type := CommandType.SET_PIXEL_COLOR
          index := (m.index.getD 0) % 65536
          r := (m.r.getD 0) % 256
          g := (m.g.getD 0) % 256
          b := (m.b.getD 0) % 256
          clientId := clientId
          commandId := (m.id.getD 0) % 4294967296 } := by
  simp only [onWsEvent]
  rw [hcmd]
  rw [if_neg (by decide), if_neg (by decide), if_neg h0, if_neg (by decide),
    if_neg (by decide), if_pos rfl, if_neg (by omega)]

theorem onWsEvent_show (sys : SysState) (clientId : Nat) (m : JsonMsg)
    (hcmd : m.cmd = "show") (h0 : (m.id.getD 0) % 4294967296 ≠ 0) :
    onWsEvent sys clientId (InMsg.json m) =
      enqueueOrReject sys clientId ((m.id.getD 0) % 4294967296)
        { type := CommandType.SHOW
          clientId := clientId
          commandId := (m.id.getD 0) % 4294967296 } := by
  simp only [onWsEvent]
  rw [hcmd]
  rw [if_neg (by decide), if_neg (by decide), if_neg h0, if_neg (by decide),
    if_neg (by decide), if_neg (by decide), if_pos rfl]

theorem onWsEvent_setBrightness (sys : SysState) (clientId : Nat) (m : JsonMsg)
    (hcmd : m.cmd = "setBrightness") (h0 : (m.id.getD 0) % 4294967296 ≠ 0) :
    onWsEvent sys clientId (InMsg.json m) =
      enqueueOrReject sys clientId ((m.id.getD 0) % 4294967296)
        { type := CommandType.SET_BRIGHTNESS
          brightness := (m.brightness.getD 255) % 256
          clientId := clientId
          commandId := (m.id.getD 0) % 4294967296 } := by
  simp only [onWsEvent]
  rw [hcmd]
  rw [if_neg (by decide), if_neg (by decide), if_neg h0, if_neg (by decide),
    if_neg (by decide), if_neg (by decide), if_neg (by decide), if_pos rfl]

theorem onWsEvent_unknown (sys : SysState) (clientId : Nat) (m : JsonMsg)
    (h1 : m.cmd ≠ "ping") (h2 : m.cmd ≠ "getPixelCount")
    (h3 : m.cmd ≠ "setColor") (h4 : m.cmd ≠ "clear")
    (h5 : m.cmd ≠ "setPixelColor") (h6 : m.cmd ≠ "show")
    (h7 : m.cmd ≠ "setBrightness")
    (h0 : (m.id.getD 0) % 4294967296 ≠ 0) :
    onWsEvent sys clientId (InMsg.json m) =
      (sys, [Event.text clientId (unknownCmdMsg ((m.id.getD 0) % 4294967296))]) := by
  simp only [onWsEvent]
  rw [if_neg h1, if_neg h2, if_neg h0, if_neg h3, if_neg h4, if_neg h5,
    if_neg h6, if_neg h7]

theorem list_ne_append_singleton (l : List Command) (x : Command) :
    l ≠ l ++ [x] := by
  intro h
  have hlen := congrArg List.length h
  simp at hlen

/-- If a dispatcher enqueue attempt grew the FIFO list by one command,
that command is the one the dispatcher built. -/
theorem enqueueOrReject_append_inv (sys : SysState) (clientId id : Nat)
    (cc c : Command) (hb : queueBounds sys.queue)
    (happ : queueList (enqueueOrReject sys clientId id cc).1.queue =
      queueList sys.queue ++ [c]) : c = cc := by
  have hq : (enqueueOrReject sys clientId id cc).1.queue =
      (enqueueCommand sys.queue cc).2 := rfl
  rw [hq] at happ
  by_cases henq : (enqueueCommand sys.queue cc).1 = true
  · have hocc := (enqueue_true_iff sys.queue cc hb.1 hb.2).mp henq
    have hap2 := (enqueue_true_state sys.queue cc hb.1 hb.2 hocc).2.2.2
    rw [hap2] at happ
    have h2 := List.append_cancel_left happ
    simpa using h2.symm
  · have hf : (enqueueCommand sys.queue cc).1 = false := by
      simpa using henq
    rw [enqueue_false_frame sys.queue cc hf] at happ
    exact absurd happ (list_ne_append_singleton _ _)

/-- Whatever JSON message arrives, if the dispatcher appended a
`SET_PIXEL_COLOR` command to the queue then its stored index is below the
configured pixel count: the bounds check happens before enqueue. -/
theorem dispatcher_spc_inbounds (sys : SysState) (clientId : Nat) (m : JsonMsg)
    (c : Command) (hb : queueBounds sys.queue)
    (happ : queueList (onWsEvent sys clientId (InMsg.json m)).1.queue =
      queueList sys.queue ++ [c])
    (htype : c.type = CommandType.SET_PIXEL_COLOR) :
    c.index < sys.strip.numPixels := by
  by_cases h1 : m.cmd = "ping"
  · rw [onWsEvent_jsonPing sys clientId m h1] at happ
    exact absurd happ (list_ne_append_singleton _ _)
  by_cases h2 : m.cmd = "getPixelCount"
  · rw [onWsEvent_getPixelCount sys clientId m h2] at happ
    exact absurd happ (list_ne_append_singleton _ _)
  by_cases h0 : (m.id.getD 0) % 4294967296 = 0
  · rw [onWsEvent_missing_id sys clientId m h1 h2 h0] at happ
    exact absurd happ (list_ne_append_singleton _ _)
  by_cases h3 : m.cmd = "setColor"
  · rw [onWsEvent_setColor sys clientId m h3 h0] at happ
    have hc := enqueueOrReject_append_inv _ _ _ _ _ hb happ
    rw [hc] at htype
    simp at htype
  by_cases h4 : m.cmd = "clear"
  · rw [onWsEvent_clear sys clientId m h4 h0] at happ
    have hc := enqueueOrReject_append_inv _ _ _ _ _ hb happ
    rw [hc] at htype
    simp at htype
  by_cases h5 : m.cmd = "setPixelColor"
  · by_cases hge : sys.strip.numPixels ≤ (m.index.getD 0) % 65536
    · rw [onWsEvent_setPixelColor_oob sys clientId m h5 h0 hge] at happ
      exact absurd happ (list_ne_append_singleton _ _)
    · have hlt : (m.index.getD 0) % 65536 < sys.strip.numPixels := by omega
      rw [onWsEvent_setPixelColor_ok sys clientId m h5 h0 hlt] at happ
      have hc := enqueueOrReject_append_inv _ _ _ _ _ hb happ
      rw [hc]
      exact hlt
  by_cases h6 : m.cmd = "show"
  · rw [onWsEvent_show sys clientId m h6 h0] at happ
    have hc := enqueueOrReject_append_inv _ _ _ _ _ hb happ
    rw [hc] at htype
    simp at htype
  by_cases h7 : m.cmd = "setBrightness"
  · rw [onWsEvent_setBrightness sys clientId m h7 h0] at happ
    have hc := enqueueOrReject_append_inv _ _ _ _ _ hb happ
    rw [hc] at htype
    simp at htype
  · rw [onWsEvent_unknown sys clientId m h1 h2 h3 h4 h5 h6 h7 h0] at happ
    exact absurd happ (list_ne_append_singleton _ _)

/-! ## Claim theorems -/

/-- C1 counterexample: a state with `QUEUE_SIZE - 1 = 511` buffered
commands — which is fewer than `QUEUE_SIZE = 512` — still has its
enqueue attempt rejected, so "succeeds iff fewer than 512 buffered" is
false. -/
theorem C1_counterexample :
    occupancy { commandQueue := fun _ => { type := CommandType.CLEAR }
                queueStart := 0
                queueEnd := 511 } = QUEUE_SIZE - 1 ∧
    occupancy { commandQueue := fun _ => { type := CommandType.CLEAR }
                queueStart := 0
                queueEnd := 511 } < QUEUE_SIZE ∧
    (enqueueCommand
      { commandQueue := fun _ => { type := CommandType.CLEAR }
        queueStart := 0
        queueEnd := 511 }
      { type := CommandType.SHOW }).1 = false := by
  exact ⟨by decide, by decide, by decide⟩

/-- C1 (amended): an enqueue attempt succeeds and appends the command if
and only if fewer than `QUEUE_SIZE - 1 = 511` commands are currently
buffered (the ring keeps one slot empty); when it fails it returns
`false` and the queue state — buffer contents, read index, write index —
is unchanged. -/
theorem C1_enqueue_characterisation (s : QueueState) (c : Command)
    (hs : s.queueStart < QUEUE_SIZE) (he : s.queueEnd < QUEUE_SIZE) :
    ((enqueueCommand s c).1 = true ↔ occupancy s < QUEUE_SIZE - 1) ∧
    ((enqueueCommand s c).1 = true →
      queueList (enqueueCommand s c).2 = queueList s ++ [c]) ∧
    ((enqueueCommand s c).1 = false → (enqueueCommand s c).2 = s) := by
  refine ⟨enqueue_true_iff s c hs he, ?_, enqueue_false_frame s c⟩
  intro ht
  exact (enqueue_true_state s c hs he ((enqueue_true_iff s c hs he).mp ht)).2.2.2

theorem C1_enqueue_characterisation_witness :
    (enqueueCommand initQueue { type := CommandType.SHOW }).1 = true ∧
    queueList (enqueueCommand initQueue { type := CommandType.SHOW }).2 =
      queueList initQueue ++ [{ type := CommandType.SHOW }] :=
  have h := C1_enqueue_characterisation initQueue { type := CommandType.SHOW }
    (by decide) (by decide)
  ⟨h.1.mpr (by decide), h.2.1 (h.1.mpr (by decide))⟩

/-- C2: the ring buffer refines an abstract FIFO list: a successful
enqueue appends at the tail, and one executor tick dequeues the first
`COMMANDS_PER_LOOP` buffered commands and applies them to the strip in
exactly arrival order (a left fold over that prefix), leaving the rest
buffered in order. -/
theorem C2_fifo_refinement (s : QueueState) (c : Command) (sys : SysState)
    (hs : s.queueStart < QUEUE_SIZE) (he : s.queueEnd < QUEUE_SIZE)
    (hb : queueBounds sys.queue) :
    ((enqueueCommand s c).1 = true →
      queueList (enqueueCommand s c).2 = queueList s ++ [c]) ∧
    (loop sys).2.1 = (queueList sys.queue).take COMMANDS_PER_LOOP ∧
    queueList (loop sys).1.queue = (queueList sys.queue).drop COMMANDS_PER_LOOP ∧
    (loop sys).1.strip =
      ((queueList sys.queue).take COMMANDS_PER_LOOP).foldl
        (fun st cc => (executeCommand st cc).1) sys.strip := by
  have hl := loopAux_spec COMMANDS_PER_LOOP sys hb
  refine ⟨?_, hl.1, hl.2.2.1, hl.2.2.2.1⟩
  intro ht
  exact (enqueue_true_state s c hs he ((enqueue_true_iff s c hs he).mp ht)).2.2.2

theorem C2_fifo_refinement_witness :
    (loop { queue := initQueue
            strip := { numPixels := 2, pixels := fun _ => 0, brightness := 0 }
            connected := fun _ => false }).2.1 =
      (queueList initQueue).take COMMANDS_PER_LOOP ∧
    queueList (loop { queue := initQueue
                      strip := { numPixels := 2, pixels := fun _ => 0, brightness := 0 }
                      connected := fun _ => false }).1.queue =
      (queueList initQueue).drop COMMANDS_PER_LOOP :=
  have h := C2_fifo_refinement initQueue { type := CommandType.SHOW }
    { queue := initQueue
      strip := { numPixels := 2, pixels := fun _ => 0, brightness := 0 }
      connected := fun _ => false }
    (by decide) (by decide) (by decide)
  ⟨h.2.1, h.2.2.1⟩

/-- C5: executing a queued `SET_PIXEL_COLOR`, `SET_COLOR`, `CLEAR` or
`SET_BRIGHTNESS` command never calls `strip.show()`; `strip.show()` is
called exactly on a `SHOW` command, and a `SHOW` leaves the in-memory
state untouched. -/
theorem C5_show_isolation (st : Strip) (cmd : Command) :
    (Event.showStrip ∈ (executeCommand st cmd).2 ↔ cmd.type = CommandType.SHOW) ∧
    (cmd.type = CommandType.SHOW → (executeCommand st cmd).1 = st) := by
  refine ⟨executeCommand_show_mem st cmd, ?_⟩
  intro h
  rcases cmd with ⟨ty, ix, r, g, b, br, ci, co⟩
  cases ty <;> simp_all [executeCommand]

theorem C5_show_isolation_witness :
    Event.showStrip ∈ (executeCommand
      { numPixels := 1, pixels := fun _ => 0, brightness := 0 }
      { type := CommandType.SHOW }).2 ∧
    (executeCommand { numPixels := 1, pixels := fun _ => 0, brightness := 0 }
      { type := CommandType.SHOW }).1 =
      { numPixels := 1, pixels := fun _ => 0, brightness := 0 } :=
  have h := C5_show_isolation
    { numPixels := 1, pixels := fun _ => 0, brightness := 0 }
    { type := CommandType.SHOW }
  ⟨h.1.mpr rfl, h.2 rfl⟩

/-- C6: one executor tick executes exactly
`min COMMANDS_PER_LOOP |queue|` commands — at most `COMMANDS_PER_LOOP`,
and fewer only because the queue ran empty — so the drain loop always
terminates within the fixed iteration cap. -/
theorem C6_drain_cap (sys : SysState) (hb : queueBounds sys.queue) :
    (loop sys).2.1.length = min COMMANDS_PER_LOOP (queueList sys.queue).length ∧
    (loop sys).2.1.length ≤ COMMANDS_PER_LOOP := by
  have hl := (loopAux_spec COMMANDS_PER_LOOP sys hb).1
  have hlen : (loop sys).2.1.length =
      min COMMANDS_PER_LOOP (queueList sys.queue).length := by
    show (loopAux sys COMMANDS_PER_LOOP).2.1.length = _
    rw [hl, List.length_take]
  exact ⟨hlen, by rw [hlen]; exact Nat.min_le_left _ _⟩

theorem C6_drain_cap_witness :
    (loop { queue := initQueue
            strip := { numPixels := 1, pixels := fun _ => 0, brightness := 0 }
            connected := fun _ => false }).2.1.length =
      min COMMANDS_PER_LOOP (queueList initQueue).length ∧
    (loop { queue := initQueue
            strip := { numPixels := 1, pixels := fun _ => 0, brightness := 0 }
            connected := fun _ => false }).2.1.length ≤ COMMANDS_PER_LOOP :=
  C6_drain_cap
    { queue := initQueue
      strip := { numPixels := 1, pixels := fun _ => 0, brightness := 0 }
      connected := fun _ => false } (by decide)

/-- C9: the occupancy `(queueEnd - queueStart) mod QUEUE_SIZE` of the
ring never exceeds `QUEUE_SIZE - 1 = 511` — one slot of the 512-entry
buffer stays empty — and the cursor-bound invariant holds in every state
reachable from the initial `queueStart = queueEnd = 0` by enqueues and
guarded dequeue steps. -/
theorem C9_occupancy_invariant :
    occupancy initQueue = 0 ∧
    (∀ s : QueueState, QueueReach s →
      queueBounds s ∧ occupancy s ≤ QUEUE_SIZE - 1) := by
  refine ⟨occupancy_init, ?_⟩
  intro s h
  have hb := queueReach_bounds s h
  have hlt := occupancy_lt s
  exact ⟨hb, by unfold QUEUE_SIZE at *; omega⟩

theorem C9_occupancy_invariant_witness :
    occupancy initQueue = 0 ∧
    queueBounds initQueue ∧ occupancy initQueue ≤ QUEUE_SIZE - 1 :=
  ⟨C9_occupancy_invariant.1, C9_occupancy_invariant.2 initQueue QueueReach.init⟩

/-- C3: for every dequeued command, the strip mutation is applied first
and the acknowledgment — carrying exactly the caller-supplied command id
— is emitted after it (the strip-call prefix of the trace contains no
reply); when the originating connection is no longer live the
acknowledgment is silently dropped while the mutation still takes
effect. -/
theorem C3_ack_after_apply (sys : SysState) (cmd : Command) :
    (execAndAck sys cmd).1.strip = (executeCommand sys.strip cmd).1 ∧
    (execAndAck sys cmd).2 =
      (executeCommand sys.strip cmd).2 ++
        (if sys.connected cmd.clientId then
          [Event.text cmd.clientId (ackMsg cmd.commandId)]
         else []) ∧
    (∀ e ∈ (executeCommand sys.strip cmd).2, e.isText = false) ∧
    (sys.connected cmd.clientId = false →
      (execAndAck sys cmd).2 = (executeCommand sys.strip cmd).2) := by
  obtain ⟨h1, _, h3⟩ := execAndAck_spec sys cmd
  refine ⟨h1, h3, executeCommand_no_text sys.strip cmd, ?_⟩
  intro hdead
  rw [h3, hdead]
  simp

theorem C3_ack_after_apply_witness :
    (execAndAck
      { queue := initQueue
        strip := { numPixels := 2, pixels := fun _ => 7, brightness := 0 }
        connected := fun _ => false }
      { type := CommandType.CLEAR, clientId := 3, commandId := 5 }).1.strip =
      (executeCommand { numPixels := 2, pixels := fun _ => 7, brightness := 0 }
        { type := CommandType.CLEAR, clientId := 3, commandId := 5 }).1 ∧
    (execAndAck
      { queue := initQueue
        strip := { numPixels := 2, pixels := fun _ => 7, brightness := 0 }
        connected := fun _ => false }
      { type := CommandType.CLEAR, clientId := 3, commandId := 5 }).2 =
      (executeCommand { numPixels := 2, pixels := fun _ => 7, brightness := 0 }
        { type := CommandType.CLEAR, clientId := 3, commandId := 5 }).2 :=
  have h := C3_ack_after_apply
    { queue := initQueue
      strip := { numPixels := 2, pixels := fun _ => 7, brightness := 0 }
      connected := fun _ => false }
    { type := CommandType.CLEAR, clientId := 3, commandId := 5 }
  ⟨h.1, h.2.2.2 rfl⟩

/-- C7: the two ping forms and `getPixelCount` are answered synchronously
with no id required and leave the state (hence the queue) unchanged; any
other JSON message whose extracted id is 0 (absent id included, since an
absent `id` reads as 0) is answered `missing_id` with the state
unchanged, regardless of what its `cmd` string is — so the id gate runs
before the command-name match. -/
theorem C7_id_gate (sys : SysState) (clientId : Nat) (m : JsonMsg) :
    onWsEvent sys clientId InMsg.rawPing = (sys, [Event.text clientId pongMsg]) ∧
    (m.cmd = "ping" →
      onWsEvent sys clientId (InMsg.json m) = (sys, [Event.text clientId pongMsg])) ∧
    (m.cmd = "getPixelCount" →
      onWsEvent sys clientId (InMsg.json m) =
        (sys, [Event.text clientId (pixelCountMsg sys.strip.numPixels)])) ∧
    (m.cmd ≠ "ping" → m.cmd ≠ "getPixelCount" →
      (m.id.getD 0) % 4294967296 = 0 →
      onWsEvent sys clientId (InMsg.json m) =
        (sys, [Event.text clientId missingIdMsg])) :=
  ⟨onWsEvent_rawPing sys clientId,
   fun h => onWsEvent_jsonPing sys clientId m h,
   fun h => onWsEvent_getPixelCount sys clientId m h,
   fun h1 h2 h0 => onWsEvent_missing_id sys clientId m h1 h2 h0⟩

theorem C7_id_gate_witness :
    onWsEvent
      { queue := initQueue
        strip := { numPixels := 1, pixels := fun _ => 0, brightness := 0 }
        connected := fun _ => true } 5
      (InMsg.json { cmd := "setColor" }) =
      ({ queue := initQueue
         strip := { numPixels := 1, pixels := fun _ => 0, brightness := 0 }
         connected := fun _ => true }, [Event.text 5 missingIdMsg]) ∧
    onWsEvent
      { queue := initQueue
        strip := { numPixels := 1, pixels := fun _ => 0, brightness := 0 }
        connected := fun _ => true } 5
      (InMsg.json { cmd := "ping" }) =
      ({ queue := initQueue
         strip := { numPixels := 1, pixels := fun _ => 0, brightness := 0 }
         connected := fun _ => true }, [Event.text 5 pongMsg]) :=
  ⟨(C7_id_gate
      { queue := initQueue
        strip := { numPixels := 1, pixels := fun _ => 0, brightness := 0 }
        connected := fun _ => true } 5 { cmd := "setColor" }).2.2.2
      (by decide) (by decide) (by decide),
   (C7_id_gate
      { queue := initQueue
        strip := { numPixels := 1, pixels := fun _ => 0, brightness := 0 }
        connected := fun _ => true } 5 { cmd := "ping" }).2.1 rfl⟩

/-- C4 counterexample: with `numPixels = 10`, a `setPixelColor` message
whose supplied `index` is 65536 — which is `≥ N` — is not rejected: no
reply is sent, a command is created and occupies a queue slot, and it
targets pixel `65536 mod 2^16 = 0`, because the index is narrowed to the
16-bit `Command.index` field before the bounds check. -/
theorem C4_counterexample :
    10 ≤ (65536 : Nat) ∧
    (onWsEvent
      { queue := initQueue
        strip := { numPixels := 10, pixels := fun _ => 0, brightness := 0 }
        connected := fun _ => true } 7
      (InMsg.json { cmd := "setPixelColor", id := some 2, index := some 65536 })).2
      = [] ∧
    occupancy (onWsEvent
      { queue := initQueue
        strip := { numPixels := 10, pixels := fun _ => 0, brightness := 0 }
        connected := fun _ => true } 7
      (InMsg.json { cmd := "setPixelColor", id := some 2, index := some 65536 })).1.queue
      = 1 ∧
    (queueList (onWsEvent
      { queue := initQueue
        strip := { numPixels := 10, pixels := fun _ => 0, brightness := 0 }
        connected := fun _ => true } 7
      (InMsg.json { cmd := "setPixelColor", id := some 2, index := some 65536 })).1.queue).map
        Command.index = [0] := by
  exact ⟨by decide, by decide, by decide, by decide⟩

/-- C4 (amended): a `setPixelColor` message whose index, narrowed to the
16-bit stored field, is `≥ N` is rejected with the
`index_out_of_bounds` reply carrying `max = N - 1`, the state (queue and
LED buffer) is unchanged and no queue slot is occupied; and every
`SET_PIXEL_COLOR` command the dispatcher ever appends to the queue has
`index < N`, so the out-of-range pixel write is unreachable from the
executor. -/
theorem C4_oob_rejected (sys : SysState) (clientId : Nat) (m : JsonMsg)
    (hN : sys.strip.numPixels < 65536)
    (hcmd : m.cmd = "setPixelColor")
    (h0 : (m.id.getD 0) % 4294967296 ≠ 0)
    (hge : sys.strip.numPixels ≤ (m.index.getD 0) % 65536) :
    onWsEvent sys clientId (InMsg.json m) =
      (sys, [Event.text clientId (oobMsg ((m.id.getD 0) % 4294967296)
        (maxIndexPrinted sys.strip.numPixels))]) ∧
    (1 ≤ sys.strip.numPixels →
      maxIndexPrinted sys.strip.numPixels = sys.strip.numPixels - 1) ∧
    (∀ (m' : JsonMsg) (c : Command), queueBounds sys.queue →
      queueList (onWsEvent sys clientId (InMsg.json m')).1.queue =
        queueList sys.queue ++ [c] →
      c.type = CommandType.SET_PIXEL_COLOR → c.index < sys.strip.numPixels) := by
  refine ⟨onWsEvent_setPixelColor_oob sys clientId m hcmd h0 hge, ?_, ?_⟩
  · intro h1
    unfold maxIndexPrinted
    omega
  · intro m' c hb happ htype
    exact dispatcher_spc_inbounds sys clientId m' c hb happ htype

theorem C4_oob_rejected_witness :
    onWsEvent
      { queue := initQueue
        strip := { numPixels := 10, pixels := fun _ => 0, brightness := 0 }
        connected := fun _ => true } 7
      (InMsg.json { cmd := "setPixelColor", id := some 2, index := some 10 }) =
      ({ queue := initQueue
         strip := { numPixels := 10, pixels := fun _ => 0, brightness := 0 }
         connected := fun _ => true },
       [Event.text 7 (oobMsg 2 (maxIndexPrinted 10))]) ∧
    maxIndexPrinted 10 = 9 :=
  have h := C4_oob_rejected
    { queue := initQueue
      strip := { numPixels := 10, pixels := fun _ => 0, brightness := 0 }
      connected := fun _ => true } 7
    { cmd := "setPixelColor", id := some 2, index := some 10 }
    (by decide) (by decide) (by decide) (by decide)
  ⟨h.1, h.2.1 (by decide)⟩

/-- C10: the `index` field of a `setPixelColor` message is stored into
the 16-bit `Command.index`, so a supplied value `i` is reduced mod
`2^16` before the bounds check: whenever `i mod 2^16 < N` the message
passes validation with no error reply, the enqueued command carries
index `i mod 2^16`, and executing it writes pixel `i mod 2^16`. -/
theorem C10_index_truncation (sys : SysState) (clientId : Nat) (m : JsonMsg)
    (i : Nat) (hb : queueBounds sys.queue)
    (hocc : occupancy sys.queue < QUEUE_SIZE - 1)
    (hcmd : m.cmd = "setPixelColor") (hidx : m.index = some i)
    (h0 : (m.id.getD 0) % 4294967296 ≠ 0)
    (hlt : i % 65536 < sys.strip.numPixels) :
    (onWsEvent sys clientId (InMsg.json m)).2 = [] ∧
    queueList (onWsEvent sys clientId (InMsg.json m)).1.queue =
      queueList sys.queue ++
        [{ type := CommandType.SET_PIXEL_COLOR
           index := i % 65536
           r := (m.r.getD 0) % 256
           g := (m.g.getD 0) % 256
           b := (m.b.getD 0) % 256
           clientId := clientId
           commandId := (m.id.getD 0) % 4294967296 }] ∧
    (executeCommand sys.strip
      { type := CommandType.SET_PIXEL_COLOR
        index := i % 65536
        r := (m.r.getD 0) % 256
        g := (m.g.getD 0) % 256
        b := (m.b.getD 0) % 256
        clientId := clientId
        commandId := (m.id.getD 0) % 4294967296 }).1.pixels (i % 65536) =
      stripColor ((m.r.getD 0) % 256) ((m.g.getD 0) % 256) ((m.b.getD 0) % 256) := by
  have hgd : m.index.getD 0 = i := by rw [hidx]; rfl
  have hlt' : (m.index.getD 0) % 65536 < sys.strip.numPixels := by
    rw [hgd]; exact hlt
  rw [← hgd]
  rw [onWsEvent_setPixelColor_ok sys clientId m hcmd h0 hlt']
  obtain ⟨heq, happ, _⟩ := enqueueOrReject_success sys clientId
    ((m.id.getD 0) % 4294967296)
    { type := CommandType.SET_PIXEL_COLOR
      index := (m.index.getD 0) % 65536
      r := (m.r.getD 0) % 256
      g := (m.g.getD 0) % 256
      b := (m.b.getD 0) % 256
      clientId := clientId
      commandId := (m.id.getD 0) % 4294967296 } hb hocc
  rw [heq]
  refine ⟨rfl, happ, ?_⟩
  show (stripSetPixel sys.strip ((m.index.getD 0) % 65536)
      (stripColor ((m.r.getD 0) % 256) ((m.g.getD 0) % 256) ((m.b.getD 0) % 256))).pixels
      ((m.index.getD 0) % 65536) = _
  rw [stripSetPixel_pixels, if_pos ⟨rfl, hlt'⟩]

theorem C10_index_truncation_witness :
    (onWsEvent
      { queue := initQueue
        strip := { numPixels := 1, pixels := fun _ => 9, brightness := 0 }
        connected := fun _ => true } 4
      (InMsg.json { cmd := "setPixelColor", id := some 1, index := some 65536 })).2
      = [] ∧
    queueList (onWsEvent
      { queue := initQueue
        strip := { numPixels := 1, pixels := fun _ => 9, brightness := 0 }
        connected := fun _ => true } 4
      (InMsg.json { cmd := "setPixelColor", id := some 1, index := some 65536 })).1.queue
      = queueList initQueue ++
        [{ type := CommandType.SET_PIXEL_COLOR, index := 65536 % 65536
           r := 0 % 256, g := 0 % 256, b := 0 % 256
           clientId := 4, commandId := 1 % 4294967296 }] :=
  have h := C10_index_truncation
    { queue := initQueue
      strip := { numPixels := 1, pixels := fun _ => 9, brightness := 0 }
      connected := fun _ => true } 4
    { cmd := "setPixelColor", id := some 1, index := some 65536 } 65536
    (by decide) (by decide) (by decide) rfl (by decide) (by decide)
  ⟨h.1, h.2.1⟩

/-- C8: for `setColor` and `setPixelColor` messages, absent `r`, `g`,
`b` fields default to 0, and for `setBrightness` an absent `brightness`
field defaults to 255, with no validation failure; in particular
`{"cmd":"setColor","id":3}` with no r/g/b is accepted, on execution sets
every pixel of the strip to color 0 (black), and is acknowledged with
ack 3. -/
theorem C8_field_defaults (sys : SysState) (clientId : Nat) (m1 m2 m3 : JsonMsg)
    (hb : queueBounds sys.queue) (hocc : occupancy sys.queue < QUEUE_SIZE - 1) :
    (m1.cmd = "setColor" → m1.r = none → m1.g = none → m1.b = none →
      (m1.id.getD 0) % 4294967296 ≠ 0 →
      (onWsEvent sys clientId (InMsg.json m1)).2 = [] ∧
      queueList (onWsEvent sys clientId (InMsg.json m1)).1.queue =
        queueList sys.queue ++
          [{ type := CommandType.SET_COLOR, r := 0, g := 0, b := 0
             clientId := clientId, commandId := (m1.id.getD 0) % 4294967296 }]) ∧
    (m2.cmd = "setPixelColor" → m2.r = none → m2.g = none → m2.b = none →
      (m2.id.getD 0) % 4294967296 ≠ 0 →
      (m2.index.getD 0) % 65536 < sys.strip.numPixels →
      (onWsEvent sys clientId (InMsg.json m2)).2 = [] ∧
      queueList (onWsEvent sys clientId (InMsg.json m2)).1.queue =
        queueList sys.queue ++
          [{ type := CommandType.SET_PIXEL_COLOR
             index := (m2.index.getD 0) % 65536, r := 0, g := 0, b := 0
             clientId := clientId, commandId := (m2.id.getD 0) % 4294967296 }]) ∧
    (m3.cmd = "setBrightness" → m3.brightness = none →
      (m3.id.getD 0) % 4294967296 ≠ 0 →
      (onWsEvent sys clientId (InMsg.json m3)).2 = [] ∧
      queueList (onWsEvent sys clientId (InMsg.json m3)).1.queue =
        queueList sys.queue ++
          [{ type := CommandType.SET_BRIGHTNESS, brightness := 255
             clientId := clientId, commandId := (m3.id.getD 0) % 4294967296 }]) ∧
    ((onWsEvent
        { queue := initQueue
          strip := { numPixels := 4, pixels := fun _ => 123, brightness := 0 }
          connected := fun _ => true } 9
        (InMsg.json { cmd := "setColor", id := some 3 })).2 = [] ∧
      (loop (onWsEvent
        { queue := initQueue
          strip := { numPixels := 4, pixels := fun _ => 123, brightness := 0 }
          connected := fun _ => true } 9
        (InMsg.json { cmd := "setColor", id := some 3 })).1).2.2 =
        (List.range 4).map (fun i => Event.setPixel i 0) ++
          [Event.text 9 (ackMsg 3)] ∧
      (∀ i < 4, (loop (onWsEvent
        { queue := initQueue
          strip := { numPixels := 4, pixels := fun _ => 123, brightness := 0 }
          connected := fun _ => true } 9
        (InMsg.json { cmd := "setColor", id := some 3 })).1).1.strip.pixels i = 0)) := by
  refine ⟨?_, ?_, ?_, by decide⟩
  · intro hc hr hg hbb hid
    rw [onWsEvent_setColor sys clientId m1 hc hid, hr, hg, hbb]
    obtain ⟨heq, happ, _⟩ := enqueueOrReject_success sys clientId
      ((m1.id.getD 0) % 4294967296)
      { type := CommandType.SET_COLOR
        r := (Option.getD (none : Option Nat) 0) % 256
        g := (Option.getD (none : Option Nat) 0) % 256
        b := (Option.getD (none : Option Nat) 0) % 256
        clientId := clientId
        commandId := (m1.id.getD 0) % 4294967296 } hb hocc
    rw [heq]
    exact ⟨rfl, happ⟩
  · intro hc hr hg hbb hid hlt
    rw [onWsEvent_setPixelColor_ok sys clientId m2 hc hid hlt, hr, hg, hbb]
    obtain ⟨heq, happ, _⟩ := enqueueOrReject_success sys clientId
      ((m2.id.getD 0) % 4294967296)
      { type := CommandType.SET_PIXEL_COLOR
        index := (m2.index.getD 0) % 65536
        r := (Option.getD (none : Option Nat) 0) % 256
        g := (Option.getD (none : Option Nat) 0) % 256
        b := (Option.getD (none : Option Nat) 0) % 256
        clientId := clientId
        commandId := (m2.id.getD 0) % 4294967296 } hb hocc
    rw [heq]
    exact ⟨rfl, happ⟩
  · intro hc hbr hid
    rw [onWsEvent_setBrightness sys clientId m3 hc hid, hbr]
    obtain ⟨heq, happ, _⟩ := enqueueOrReject_success sys clientId
      ((m3.id.getD 0) % 4294967296)
      { type := CommandType.SET_BRIGHTNESS
        brightness := (Option.getD (none : Option Nat) 255) % 256
        clientId := clientId
        commandId := (m3.id.getD 0) % 4294967296 } hb hocc
    rw [heq]
    exact ⟨rfl, happ⟩

theorem C8_field_defaults_witness :
    (onWsEvent
      { queue := initQueue
        strip := { numPixels := 2, pixels := fun _ => 0, brightness := 0 }
        connected := fun _ => true } 5
      (InMsg.json { cmd := "setColor", id := some 7 })).2 = [] ∧
    queueList (onWsEvent
      { queue := initQueue
        strip := { numPixels := 2, pixels := fun _ => 0, brightness := 0 }
        connected := fun _ => true } 5
      (InMsg.json { cmd := "setColor", id := some 7 })).1.queue =
      queueList initQueue ++
        [{ type := CommandType.SET_COLOR, r := 0, g := 0, b := 0
           clientId := 5, commandId := 7 % 4294967296 }] :=
  (C8_field_defaults
    { queue := initQueue
      strip := { numPixels := 2, pixels := fun _ => 0, brightness := 0 }
      connected := fun _ => true } 5
    { cmd := "setColor", id := some 7 }
    { cmd := "setPixelColor", id := some 8, index := some 0 }
    { cmd := "setBrightness", id := some 9 }
    (by decide) (by decide)).1 rfl rfl rfl rfl (by decide)
